import Mathlib

/-!
# Verification of the wgmesh core against its specification

This development shallowly embeds the parts of the `jcodybaker/wgmesh`
repository that the analyzed claims are about:

* the address arithmetic and IPAM of `pkg/agent/ipam.go`
  (`canonicalIPInCIDR`, `ipGreater`/`ipLess`, `defaultRangeStart`/`defaultRangeEnd`,
  `incrementIP`/`byteSliceIncrement`, `randomInCIDR`, `ipPool.findAddress`,
  `registryIPAM.loadPool`, `registryIPAM.ClaimIPs`, `claimName`);
* the interface-name allocation and interface factory of `pkg/interfaces`
  (`nextInterfaceName`, `EnsureWireGuardInterface`);
* the peer reconciler of `pkg/agent/peer_tracker.go`
  (`applyUpdate`, `deletePeer`, `applyInitialConfig`, `OnAdd`/`OnUpdate`/`OnDelete`).

Go byte slices are modelled as `List Nat` whose elements are bytes (< 256);
`net.IP` is such a list of length 4 or 16, `net.IPMask` likewise, and
`net.IPNet` is the pair of the two.  Machine arithmetic on bytes is explicit
(`% 256`).  Fallible Go functions returning `(T, error)` are modelled as
`Except String T`.  Randomness (`crypto/rand`) and the Kubernetes registry
are modelled as explicit parameters: random draws are passed in as byte
lists, the registry is a list of records threaded through the functions.
-/

namespace Wgmesh

/-! ## Go `net` primitives used by ipam.go

These model the exact behaviour of the Go standard library functions the
source calls: `IP.To4`, `IP.To16`, `IPMask.Size`, `net.CIDRMask`,
`IP.Equal`, `IP.Mask`, `IPNet.Contains`, `IP.String` and the IPv4 paths of
`net.ParseIP`/`net.ParseCIDR`. -/

/-- `v4InV6Prefix` from Go's net package: the 12-byte prefix `::ffff:` of an
IPv4-mapped IPv6 address. -/
def v4InV6Prefix : List Nat := [0, 0, 0, 0, 0, 0, 0, 0, 0, 0, 255, 255]

/-- Go `net.IP.To4`: a 4-byte IP is returned as is; a 16-byte IPv4-mapped IP
(`::ffff:a.b.c.d`) is stripped to its last 4 bytes; anything else yields
`none` (Go: nil). -/
def to4 (ip : List Nat) : Option (List Nat) :=
  if ip.length = 4 then some ip
  else if ip.length = 16 ∧ ip.take 12 = v4InV6Prefix then some (ip.drop 12)
  else none

/-- Go `net.IP.To16`: a 4-byte IP is widened to the IPv4-mapped 16-byte form;
a 16-byte IP is returned as is; anything else yields `[]` (Go: nil). -/
def to16 (ip : List Nat) : List Nat :=
  if ip.length = 4 then v4InV6Prefix ++ ip
  else if ip.length = 16 then ip
  else []

/-- The number of leading one bits of a mask byte, `none` when the byte is
not of the form ones-then-zeros.  This is the inner loop of Go's
`simpleMaskLength` (count leading ones of the byte, reject if a one bit
remains afterwards), written out as the 9 possible valid byte values. -/
def maskByteOnes : Nat → Option Nat
  | 0 => some 0
  | 128 => some 1
  | 192 => some 2
  | 224 => some 3
  | 240 => some 4
  | 248 => some 5
  | 252 => some 6
  | 254 => some 7
  | 255 => some 8
  | _ => none

/-- Go `simpleMaskLength`: the prefix length of a canonical mask
(ones followed by zeros), `none` (Go: -1) for a non-canonical mask. -/
def simpleMaskLength : List Nat → Option Nat
  | [] => some 0
  | 255 :: rest => (simpleMaskLength rest).map (fun n => 8 + n)
  | v :: rest =>
    match maskByteOnes v with
    | none => none
    | some k => if rest.all (fun b => b = 0) then some k else none

/-- Go `net.IPMask.Size`: `(ones, total bits)`, or `(0, 0)` for a
non-canonical mask. -/
def maskSize (m : List Nat) : Nat × Nat :=
  match simpleMaskLength m with
  | none => (0, 0)
  | some ones => (ones, 8 * m.length)

/-- The byte list of Go `net.CIDRMask(ones, 8*l)`: `l` bytes, the first
`ones` bits set.  A partial byte is `^(0xff >> n)`, i.e. `255 - 255 / 2^n`. -/
def cidrMaskBytes : Nat → Nat → List Nat
  | _, 0 => []
  | n, Nat.succ l =>
    if n ≥ 8 then 255 :: cidrMaskBytes (n - 8) l
    else (255 - 255 / 2 ^ n) :: cidrMaskBytes 0 l

/-- Go `net.CIDRMask(ones, bits)`: only 32- and 128-bit masks exist, and
`ones` may not exceed `bits`; Go returns nil (here `[]`) otherwise. -/
def cidrMask (ones bits : Nat) : List Nat :=
  if (bits = 32 ∨ bits = 128) ∧ ones ≤ bits then cidrMaskBytes ones (bits / 8)
  else []

/-- Go `net.IP.Equal`: equal lengths compare bytewise; a 4-byte and a
16-byte IP are equal when the 16-byte one is the IPv4-mapped form of the
other. -/
def ipEqual (x p : List Nat) : Bool :=
  if x.length = p.length then decide (x = p)
  else if x.length = 4 ∧ p.length = 16 then decide (p.take 12 = v4InV6Prefix ∧ p.drop 12 = x)
  else if x.length = 16 ∧ p.length = 4 then decide (x.take 12 = v4InV6Prefix ∧ x.drop 12 = p)
  else false

/-- Decimal rendering of one byte (Go `uitoa`). -/
def byteDec (n : Nat) : String := Nat.repr n

/-- Hexadecimal rendering of one 16-bit group, used by the IPv6 branch of
`ipString`. -/
def hexGroup (n : Nat) : String := Nat.toDigits 16 n |>.asString

/-- Go `net.IP.String`, restricted to what the analyzed code compares: an IP
with an IPv4 form renders as a dotted quad, exactly as in Go.  A genuine
IPv6 address renders as colon-separated hex groups; Go additionally
compresses the longest run of zero groups (RFC 5952), which only changes
the spelling, not equality between two 16-byte IPs, and no analyzed claim
compares IPv6 strings.  Other lengths render as `?` (Go renders them in a
hex error form). -/
def ipString (ip : List Nat) : String :=
  match to4 ip with
  | some [a, b, c, d] =>
    byteDec a ++ "." ++ byteDec b ++ "." ++ byteDec c ++ "." ++ byteDec d
  | _ =>
    if ip.length = 16 then
      String.intercalate ":"
        ((List.range 8).map (fun i => hexGroup (ip.getD (2 * i) 0 * 256 + ip.getD (2 * i + 1) 0)))
    else "?"

/-- Go `net.IPNet`: an address together with a mask, both byte lists. -/
structure IPNet where
  ip : List Nat
  mask : List Nat
deriving DecidableEq, Repr

/-- Go `net.IP.Mask(mask)`: width adjustments between 4- and 16-byte forms,
then a bytewise AND; `[]` (Go: nil) on a residual length mismatch. -/
def ipMaskApply (ip mask : List Nat) : List Nat :=
  let mask := if mask.length = 16 ∧ ip.length = 4 ∧ mask.take 12 = List.replicate 12 255
    then mask.drop 12 else mask
  let ip := if mask.length = 4 ∧ ip.length = 16 ∧ ip.take 12 = v4InV6Prefix
    then ip.drop 12 else ip
  if ip.length = mask.length then List.zipWith Nat.land ip mask else []

/-- Go `networkNumberAndMask` (helper of `IPNet.Contains`). -/
def networkNumberAndMask (n : IPNet) : Option (List Nat × List Nat) :=
  let ipOpt := match to4 n.ip with
    | some x => some x
    | none => if n.ip.length = 16 then some n.ip else none
  match ipOpt with
  | none => none
  | some ip =>
    if n.mask.length = 4 then
      if ip.length = 4 then some (ip, n.mask) else none
    else if n.mask.length = 16 then
      if ip.length = 4 then some (ip, n.mask.drop 12) else some (ip, n.mask)
    else none

/-- Go `net.IPNet.Contains`. -/
def ipNetContains (n : IPNet) (ip : List Nat) : Bool :=
  match networkNumberAndMask n with
  | none => false
  | some (nn, m) =>
    let ip := match to4 ip with | some x => x | none => ip
    if ip.length ≠ nn.length then false
    else (List.range ip.length).all
      (fun i => Nat.land (nn.getD i 0) (m.getD i 0) = Nat.land (ip.getD i 0) (m.getD i 0))

/-! IPv4 string parsing (`net.ParseIP` / `net.ParseCIDR`). The analyzed pool
and claim records only carry IPv4 dotted-quad text, so the IPv6 textual
forms accepted by Go are not modelled; on them this parser answers `none`
where Go would succeed, which no settled claim exercises. -/

/-- Split a character list on a separator character. -/
def splitOnChar (sep : Char) : List Char → List (List Char)
  | [] => [[]]
  | c :: rest =>
    let r := splitOnChar sep rest
    if c = sep then [] :: r
    else match r with
      | [] => [[c]]
      | g :: gs => (c :: g) :: gs

/-- Parse one decimal byte field of a dotted quad (Go `dtoi` plus the field
checks of `parseIPv4`: non-empty, at most 3 digits, no leading zero, value
at most 255). -/
def parseV4Field (cs : List Char) : Option Nat :=
  if cs = [] ∨ cs.length > 3 then none
  else if ¬ cs.all Char.isDigit then none
  else if cs.length > 1 ∧ cs.headD '0' = '0' then none
  else
    let n := cs.foldl (fun acc c => acc * 10 + (c.toNat - 48)) 0
    if n ≤ 255 then some n else none

/-- Go `net.ParseIP` on dotted-quad IPv4 text: the 16-byte (IPv4-mapped)
representation, `none` (Go: nil) on malformed text. -/
def parseIPv4 (s : String) : Option (List Nat) :=
  match (splitOnChar '.' s.toList).mapM parseV4Field with
  | some [a, b, c, d] => some (v4InV6Prefix ++ [a, b, c, d])
  | _ => none

/-- Parse the decimal prefix length after the slash (Go `dtoi`; at most the
bit length of the address). -/
def parsePrefixLen (cs : List Char) (bits : Nat) : Option Nat :=
  if cs = [] ∨ ¬ cs.all Char.isDigit ∨ cs.length > 3 then none
  else if cs.length > 1 ∧ cs.headD '0' = '0' then none
  else
    let n := cs.foldl (fun acc c => acc * 10 + (c.toNat - 48)) 0
    if n ≤ bits then some n else none

/-- Go `net.ParseCIDR` on IPv4 text `a.b.c.d/n`: the full 16-byte address
and the `IPNet` with the masked 4-byte network address and 4-byte mask. -/
def parseCIDRv4 (s : String) : Option (List Nat × IPNet) :=
  match splitOnChar '/' s.toList with
  | [addr, maskTxt] =>
    match parseIPv4 (String.mk addr) with
    | none => none
    | some ipFull =>
      match parsePrefixLen maskTxt 32 with
      | none => none
      | some n =>
        let m := cidrMask n 32
        some (ipFull, ⟨ipMaskApply ipFull m, m⟩)
  | _ => none

/-! ## pkg/agent/ipam.go — address arithmetic -/

/-- `byteSliceAnd` from ipam.go: bytewise AND, error on length mismatch. -/
def byteSliceAnd (a b : List Nat) : Except String (List Nat) :=
  if a.length ≠ b.length then
    Except.error "bitwise AND called w/ different lengths"
  else Except.ok (List.zipWith Nat.land a b)

/-- `byteSliceOr` from ipam.go: bytewise OR, error on length mismatch. -/
def byteSliceOr (a b : List Nat) : Except String (List Nat) :=
  if a.length ≠ b.length then
    Except.error "bitwise OR called w/ different lengths"
  else Except.ok (List.zipWith Nat.lor a b)

/-- `byteSliceNot` from ipam.go: bytewise complement; on a byte (< 256) the
Go `^a[i]` equals `255 - a[i]`. -/
def byteSliceNot (a : List Nat) : List Nat :=
  a.map (fun v => 255 - v)

/-- `byteSliceIncrement` from ipam.go, preserving its exact (buggy) carry:
the last byte is incremented mod 256 and, when it wraps to zero and its
index is not 1, the recursion continues on the prefix `b[:last-1]` —
dropping the byte at `last-1` from the carry chain — rather than on
`b[:last]`.  The Go function mutates `b` in place; this returns the
resulting list. -/
def byteSliceIncrementAux : Nat → List Nat → List Nat
  | 0, b => b
  | Nat.succ fuel, b =>
    if b.length = 0 then b
    else
      let last := b.length - 1
      let v := (b.getD last 0 + 1) % 256
      let b' := b.set last v
      if v = 0 ∧ last ≠ 1 then
        byteSliceIncrementAux fuel (b'.take (last - 1)) ++ b'.drop (last - 1)
      else b'

/-- Entry point of `byteSliceIncrement`: every recursive call shrinks the
slice by at least two bytes, so `b.length` steps of fuel always suffice
(the `fuel = 0` case is unreachable). -/
def byteSliceIncrement (b : List Nat) : List Nat :=
  byteSliceIncrementAux b.length b

/-- `canonicalIPInCIDR` from ipam.go: return the CIDR with a 4-byte address
for IPv4 (including IPv4-mapped IPv6 with prefix length at least 96, whose
mask is narrowed to `original - 96` bits of 32) or a 16-byte address for
IPv6; error on a mixed v4/v6 CIDR or an invalid mask size. -/
def canonicalIPInCIDR (inp : IPNet) : Except String IPNet :=
  let (bits, size) := maskSize inp.mask
  if size = 32 then -- IPv4
    match to4 inp.ip with
    | some ip4 => Except.ok ⟨ip4, inp.mask⟩
    | none => Except.error "net.IPNet had IPv4 mask w/ non-IPv4 network"
  else if size = 128 then -- IPv6
    match to4 inp.ip with
    | some ip4 => -- IPv6 encoded IPv4
      if bits < 96 then Except.error "IPv6 CIDR includes both v4 and v6 space"
      else Except.ok ⟨ip4, cidrMask (bits - 96) 32⟩
    | none =>
      if inp.ip.length = 16 then Except.ok ⟨to16 inp.ip, inp.mask⟩
      else Except.error "invalid network address"
  else Except.error "invalid mask"

/-- `ipGreater` from ipam.go: lexicographic compare after widening both
addresses to 16 bytes when the lengths differ; `orEqual` decides the result
on equality; error when the lengths still differ after widening. -/
def ipGreater (orEqual : Bool) (a b : List Nat) : Except String Bool :=
  let p := if a.length ≠ b.length then (to16 a, to16 b) else (a, b)
  if p.1.length ≠ p.2.length then
    Except.error "unable to compare addresses of different bit length"
  else Except.ok (ipGreaterLoop p.1 p.2 orEqual)
where
  /-- the `for i := range a` loop of `ipGreater`: first differing byte
  decides. -/
  ipGreaterLoop : List Nat → List Nat → Bool → Bool
    | [], _, orEqual => orEqual
    | _ :: _, [], orEqual => orEqual
    | x :: xs, y :: ys, orEqual => if x = y then ipGreaterLoop xs ys orEqual else decide (x > y)

/-- `ipLess` from ipam.go: defined as `ipGreater` with swapped arguments. -/
def ipLess (orEqual : Bool) (a b : List Nat) : Except String Bool :=
  ipGreater orEqual b a

/-- `defaultRangeEnd` from ipam.go: the broadcast address of the canonical
CIDR, minus one in the last byte for IPv4 prefixes shorter than /31. -/
def defaultRangeEnd (cidr : IPNet) : Except String (List Nat) := do
  let cidr ← canonicalIPInCIDR cidr
  let (maskOnes, maskBits) := maskSize cidr.mask
  let notMask := byteSliceNot cidr.mask
  let out ← byteSliceOr notMask cidr.ip
  if maskBits = 32 ∧ maskOnes < 31 then
    -- implicit reservation of the IPv4 broadcast address (`out[len(out)-1]--`,
    -- a byte decrement, hence mod 256)
    Except.ok (out.set (out.length - 1) ((out.getD (out.length - 1) 0 + 255) % 256))
  else Except.ok out

/-- `defaultRangeStart` from ipam.go: the canonical network address, plus
one in the last byte for IPv4 prefixes shorter than /31. -/
def defaultRangeStart (cidr : IPNet) : Except String (List Nat) := do
  let cidr ← canonicalIPInCIDR cidr
  let (maskOnes, maskBits) := maskSize cidr.mask
  let start := cidr.ip
  if maskBits = 32 ∧ maskOnes < 31 then
    -- implicit reservation of the IPv4 network address (`start[len(start)-1]++`)
    Except.ok (start.set (start.length - 1) ((start.getD (start.length - 1) 0 + 1) % 256))
  else Except.ok start

/-- `incrementIP` from ipam.go: canonicalize, bump the address bytes with
`byteSliceIncrement`, and recombine the incremented host part with the
unchanged network part. -/
def incrementIP (inp : IPNet) : Except String IPNet := do
  let inp ← canonicalIPInCIDR inp
  let ip := byteSliceIncrement inp.ip
  let netAddr ← byteSliceAnd inp.ip inp.mask
  let notMask := byteSliceNot inp.mask
  let sig ← byteSliceAnd ip notMask
  let outIP ← byteSliceOr sig netAddr
  Except.ok ⟨outIP, inp.mask⟩

/-- `incrementIP` iterated `n` times. -/
def incrementIPn : Nat → IPNet → Except String IPNet
  | 0, x => Except.ok x
  | Nat.succ n, x =>
    match incrementIP x with
    | Except.error e => Except.error e
    | Except.ok y => incrementIPn n y

/-- `randomInCIDR` from ipam.go.  Go fills `randAddr` with `len(cidr.IP)`
bytes from `crypto/rand`; the draw is passed in as the `randAddr`
parameter. -/
def randomInCIDR (cidr : IPNet) (randAddr : List Nat) : Except String IPNet := do
  let cidr ← canonicalIPInCIDR cidr
  let notMask := byteSliceNot cidr.mask
  let significantBits ← byteSliceAnd notMask randAddr
  let outIP ← byteSliceOr significantBits cidr.ip
  Except.ok ⟨outIP, cidr.mask⟩

/-! ## pkg/agent/ipam.go — pool model and findAddress -/

/-- `ipRange` from ipam.go.  `start`/`end` keep whatever byte form they were
produced in (16-byte from `net.ParseIP`, 4-byte from the defaults); the
field `end` is named `endIP` because `end` is a Lean keyword. -/
structure IPRange where
  cidr : IPNet
  startIP : List Nat
  endIP : List Nat
deriving DecidableEq, Repr

/-- `ipPool` from ipam.go.  `inUse` is Go's `map[string]struct{}` keyed by
`net.IP.String()`; the map is modelled as the list of its keys. -/
structure IPPool where
  name : String
  inUse : List String
  ranges : List IPRange
deriving DecidableEq, Repr

/-- The filter body of `findAddress`'s inner loop: `ok true` when
`currentAddr` survives (is returned), `ok false` when the loop `continue`s.
It preserves the source exactly: `isBeforeStart` is
`ipGreater(false, currentAddr.IP, r.start)` and `isAfterEnd` is
`ipLess(false, currentAddr.IP, r.start)` — both tests compare against
`r.start`. -/
def findAddressTest (inUse : List String) (r : IPRange) (currentAddr : IPNet) :
    Except String Bool := do
  let isBeforeStart ← ipGreater false currentAddr.ip r.startIP
  if isBeforeStart then Except.ok false
  else do
    let isAfterEnd ← ipLess false currentAddr.ip r.startIP
    if isAfterEnd then Except.ok false
    else Except.ok (¬ inUse.contains (ipString currentAddr.ip))

/-- The inner `for` loop of `findAddress` over one range: test the current
address; on `continue`, advance with `incrementIP` and stop with `ok none`
(move to the next range) when the walk has wrapped around to `firstTry`.
Go iterates without bound; the `fuel` argument is instantiated with more
steps than there are addresses, so the `fuel = 0` case is unreachable. -/
def findInRange (inUse : List String) (r : IPRange) (firstTry : IPNet) :
    Nat → IPNet → Except String (Option IPNet)
  | 0, _ => Except.error "model: loop fuel exhausted"
  | Nat.succ fuel, currentAddr =>
    match findAddressTest inUse r currentAddr with
    | Except.error e => Except.error e
    | Except.ok true => Except.ok (some currentAddr)
    | Except.ok false =>
      match incrementIP currentAddr with
      | Except.error e => Except.error e
      | Except.ok next =>
        if ipEqual next.ip firstTry.ip then Except.ok none
        else findInRange inUse r firstTry fuel next

/-- The outer loop of `findAddress` over the (already shuffled) ranges.
`draws` supplies one `crypto/rand` draw per visited range. -/
def findAddressRanges (inUse : List String) :
    List IPRange → List (List Nat) → Except String IPNet
  | [], _ => Except.error "no available IP addresses"
  | r :: rs, draws =>
    match randomInCIDR r.cidr (draws.headD []) with
    | Except.error e => Except.error e
    | Except.ok firstTry =>
      match findInRange inUse r firstTry (256 ^ firstTry.ip.length + 1) firstTry with
      | Except.error e => Except.error e
      | Except.ok (some addr) => Except.ok addr
      | Except.ok none => findAddressRanges inUse rs draws.tail

/-- `ipPool.findAddress` from ipam.go. -/
def ipPoolFindAddress (p : IPPool) (draws : List (List Nat)) : Except String IPNet :=
  findAddressRanges p.inUse p.ranges draws

/-! ## pkg/agent/ipam.go — registry model, loadPool and ClaimIPs

The Kubernetes registry is modelled by the list of `IPClaim` objects it
stores; `Create` fails on a namespace/name collision (`AlreadyExists`), and
`Delete` with a UID precondition fails on a UID mismatch (`Conflict`) and
reports `NotFound` for a missing object.  The pool object is passed in as
its spec. -/

/-- The compared fields of `metav1.OwnerReference`. -/
structure OwnerReference where
  name : String
  apiVersion : String
  kind : String
deriving DecidableEq, Repr

/-- `wgk8s.IPRange` (pkg/apis/wgmesh/v1alpha1): `{CIDR, Start, End}`; the
`End` field is named `endStr` because `end` is a Lean keyword. -/
structure IPRangeSpec where
  cidr : String
  start : String
  endStr : String
deriving DecidableEq, Repr

/-- `wgk8s.IPPoolSpec`: `{IPRanges, Reserved}`. -/
structure IPPoolSpec where
  ipRanges : List IPRangeSpec
  reserved : List String
deriving DecidableEq, Repr

/-- A stored `wgk8s.IPClaim`: object metadata (name, namespace, UID, owner
references) plus `Spec.IP`. -/
structure IPClaim where
  name : String
  ns : String
  uid : String
  ownerReferences : List OwnerReference
  ip : String
deriving DecidableEq, Repr

/-- `claimName` from ipam.go: lowercase the address text and replace every
character that is not a lowercase hex digit with `-`, then join with the
pool name by `-`. -/
def claimName (pool ip : String) : String :=
  pool ++ "-" ++ String.mk (ip.toList.map (fun ch =>
    let c := ch.toLower
    if ('a' ≤ c ∧ c ≤ 'f') ∨ ('0' ≤ c ∧ c ≤ '9') then c else '-'))

/-- Registry `Create` for IP claims: `none` models an `AlreadyExists`
error on a namespace/name collision. -/
def registryCreateClaim (registry : List IPClaim) (c : IPClaim) : Option (List IPClaim) :=
  if registry.any (fun x => x.ns == c.ns && x.name == c.name) then none
  else some (registry ++ [c])

/-- Outcome of a precondition-guarded registry `Delete`. -/
inductive DeleteOutcome where
  | deleted (registry : List IPClaim)
  | notFound
  | conflict
deriving DecidableEq, Repr

/-- Registry `Delete` with `metav1.NewPreconditionDeleteOptions(uid)`. -/
def registryDeleteClaim (registry : List IPClaim) (ns name uid : String) : DeleteOutcome :=
  match registry.find? (fun x => x.ns == ns && x.name == name) with
  | none => DeleteOutcome.notFound
  | some c =>
    if c.uid = uid then
      DeleteOutcome.deleted (registry.filter (fun x => !(x.ns == ns && x.name == name)))
    else DeleteOutcome.conflict

/-- The range loop of `loadPool`: walk the ranges in the shuffled index
order (`rangeIndexes` is the `randPerm` result), parse the CIDR, parse and
bounds-check `start`/`end` when present and default them otherwise.  An
index out of bounds cannot arise from `randPerm`; it is mapped to an empty
(parse-failing) range spec. -/
def loadPoolRanges (ipRanges : List IPRangeSpec) : List Nat → Except String (List IPRange)
  | [] => Except.ok []
  | i :: rest =>
    let ipr := ipRanges.getD i ⟨"", "", ""⟩
    match parseCIDRv4 ipr.cidr with
    | none => Except.error ("parsing ipv4.cidr " ++ ipr.cidr)
    | some (_, cidr) => do
      let startA ←
        if ipr.start ≠ "" then
          match parseIPv4 ipr.start with
          | none => Except.error ("parsing ipv4.start " ++ ipr.start)
          | some s =>
            if ¬ ipNetContains cidr s then
              Except.error ("ipv4.start " ++ ipr.start ++ " was not contained by cidr")
            else Except.ok s
        else defaultRangeStart cidr
      let endA ←
        if ipr.endStr ≠ "" then
          match parseIPv4 ipr.endStr with
          | none => Except.error ("parsing ipv4.end " ++ ipr.endStr)
          | some e =>
            if ¬ ipNetContains cidr e then
              Except.error ("ipv4.end " ++ ipr.endStr ++ " was not contained by cidr")
            else Except.ok e
        else defaultRangeEnd cidr
      let rest' ← loadPoolRanges ipRanges rest
      Except.ok (⟨cidr, startA, endA⟩ :: rest')

/-- The reserved-address loop of `loadPool`: parse each address and record
its canonical string form as in use. -/
def loadPoolReserved : List String → Except String (List String)
  | [] => Except.ok []
  | ip :: rest =>
    match parseIPv4 ip with
    | none => Except.error ("parsing reserved ip " ++ ip)
    | some r => do
      let rest' ← loadPoolReserved rest
      Except.ok (ipString r :: rest')

/-- The claim loop of `loadPool`: parse each claim's address into the
in-use set and remember the claim once per owner reference matching the
caller's owner (name, version and kind), exactly as the source's inner
loop appends. -/
def loadPoolClaims (owner : OwnerReference) : List IPClaim → Except String (List String × List IPClaim)
  | [] => Except.ok ([], [])
  | claim :: rest =>
    match parseIPv4 claim.ip with
    | none => Except.error ("parsing claim " ++ claim.ns ++ ":" ++ claim.name ++ " - ip " ++ claim.ip)
    | some r => do
      let (inUse, ours) ← loadPoolClaims owner rest
      let mine := (claim.ownerReferences.filter (fun o =>
        o.name == owner.name && o.apiVersion == owner.apiVersion && o.kind == owner.kind)).map
        (fun _ => claim)
      Except.ok (ipString r :: inUse, mine ++ ours)

/-- `registryIPAM.loadPool` from ipam.go: build the in-memory pool from the
pool record and the namespace's claims, and collect our claims.  The
registry `Get`/`List` calls are modelled by passing the pool spec and claim
list in; the `randPerm` shuffle is the `rangeIndexes` parameter. -/
def loadPool (poolRecord : IPPoolSpec) (claims : List IPClaim)
    (ns poolName : String) (owner : OwnerReference) (rangeIndexes : List Nat) :
    Except String (IPPool × List IPClaim) := do
  let ranges ← loadPoolRanges poolRecord.ipRanges rangeIndexes
  let reservedKeys ← loadPoolReserved poolRecord.reserved
  let (claimKeys, ourClaims) ← loadPoolClaims owner claims
  Except.ok (⟨ns ++ ":" ++ poolName, reservedKeys ++ claimKeys, ranges⟩, ourClaims)

/-- The first loop of `ClaimIPs` over our existing claims: reuse up to
`count` of them (parsing each claim's address) and delete the surplus with
a UID-precondition delete, swallowing `NotFound`. -/
def claimIPsReuse (ns poolName : String) :
    List IPClaim → Nat → List IPClaim → List IPNet →
    Except String (List IPNet × Nat × List IPClaim)
  | [], count, registry, acc => Except.ok (acc, count, registry)
  | claim :: rest, count, registry, acc =>
    if count > 0 then
      match parseCIDRv4 claim.ip with
      | none => Except.error ("invalid claim " ++ claim.name ++ " for pool " ++ ns ++ ":" ++ poolName)
      | some (ipFull, cidr) =>
        -- `cidr.IP = ip`: the claimed CIDR carries the full address
        claimIPsReuse ns poolName rest (count - 1) registry (acc ++ [⟨ipFull, cidr.mask⟩])
    else
      match registryDeleteClaim registry ns claim.name claim.uid with
      | DeleteOutcome.deleted reg => claimIPsReuse ns poolName rest count reg acc
      | DeleteOutcome.notFound => claimIPsReuse ns poolName rest count registry acc
      | DeleteOutcome.conflict => Except.error "deleting claim"

/-- The `for count > 0` allocation loop of `ClaimIPs`: find an address,
create its claim — with only name and namespace set and an empty spec,
exactly as the source does — and retry without decrementing on
`AlreadyExists`.  `draws` supplies the randomness of each `findAddress`
invocation; `fuel` bounds the retry loop (Go retries without bound). -/
def claimIPsAllocate (pool : IPPool) (ns poolName : String) :
    Nat → List IPClaim → List IPNet → Nat → List (List (List Nat)) →
    Except String (List IPNet × List IPClaim)
  | 0, _, _, _, _ => Except.error "model: retry fuel exhausted"
  | Nat.succ fuel, registry, acc, count, draws =>
    match count with
    | 0 => Except.ok (acc, registry)
    | Nat.succ count' =>
      match ipPoolFindAddress pool (draws.headD []) with
      | Except.error e => Except.error ("finding address in pool " ++ ns ++ ":" ++ poolName ++ ": " ++ e)
      | Except.ok addr =>
        let name := claimName poolName (ipString addr.ip)
        -- the created claim: ObjectMeta{Name, Namespace} and Spec{} — no
        -- owner references, no Spec.IP (ipam.go lines 76-85)
        match registryCreateClaim registry ⟨name, ns, "", [], ""⟩ with
        | none => claimIPsAllocate pool ns poolName fuel registry acc (Nat.succ count') draws.tail
        | some reg => claimIPsAllocate pool ns poolName fuel reg (acc ++ [addr]) count' draws.tail

/-- `registryIPAM.ClaimIPs` from ipam.go: load the pool, reuse or release
our existing claims, then allocate the remaining count.  Returns the
claimed CIDRs together with the final registry contents. -/
def claimIPs (registry : List IPClaim) (poolRecord : IPPoolSpec)
    (ns poolName : String) (owner : OwnerReference) (count : Nat)
    (rangeIndexes : List Nat) (draws : List (List (List Nat))) (fuel : Nat) :
    Except String (List IPNet × List IPClaim) :=
  match loadPool poolRecord (registry.filter (fun c => c.ns == ns))
      ns poolName owner rangeIndexes with
  | Except.error e => Except.error ("loading pool " ++ ns ++ ":" ++ poolName ++ ": " ++ e)
  | Except.ok (pool, ourClaims) =>
    match claimIPsReuse ns poolName ourClaims count registry [] with
    | Except.error e => Except.error e
    | Except.ok (acc, count, registry) =>
      claimIPsAllocate pool ns poolName fuel registry acc count draws

/-! ## pkg/interfaces — interface-name allocation and the factory -/

/-- `strings.Replace(s, old, "", 1)`: remove the first occurrence of `old`
(as a character list).  `strings.Replace` with an empty `old` would insert
the (empty) replacement, leaving `s` unchanged. -/
def replaceFirstSub (pat : List Char) : List Char → List Char
  | [] => []
  | c :: rest =>
    if pat ≠ [] ∧ pat.isPrefixOf (c :: rest) then (c :: rest).drop pat.length
    else c :: replaceFirstSub pat rest

/-- `strings.HasSuffix` on the character-list representation. -/
def strHasSuffix (s suffix : String) : Bool :=
  suffix.toList.isSuffixOf s.toList

/-- The loop of `strings.ReplaceAll` (replace every occurrence of `pat`),
with the string length as structural fuel: each step consumes at least one
character. -/
def replaceAllSubAux (pat repl : List Char) : Nat → List Char → List Char
  | 0, l => l
  | _, [] => []
  | Nat.succ fuel, c :: rest =>
    if pat ≠ [] ∧ pat.isPrefixOf (c :: rest) then
      repl ++ replaceAllSubAux pat repl fuel ((c :: rest).drop pat.length)
    else c :: replaceAllSubAux pat repl fuel rest

/-- `strings.ReplaceAll(s, pat, repl)`. -/
def strReplaceAll (s pat repl : String) : String :=
  String.mk (replaceAllSubAux pat.toList repl.toList s.toList.length s.toList)

/-- `strconv.ParseUint(s, 10, 64)`: a non-empty all-digit decimal below
`2^64`. -/
def parseUintDec (cs : List Char) : Option Nat :=
  if cs = [] ∨ ¬ cs.all Char.isDigit then none
  else
    let n := cs.foldl (fun acc c => acc * 10 + (c.toNat - 48)) 0
    if n < 2 ^ 64 then some n else none

/-- Modelled from the spec: the Linux implementation of
`IsWireGuardInterfaceNameValid` is not under `src/` (only its tests and its
callers are).  Per the spec, a name is validated against the platform's
maximum interface-name length and character rules; per the tests
(`TestIsWireGuardInterfaceNameValid`), an empty name, a name containing a
`/` character, a name containing whitespace, and a name of `unix.IFNAMSIZ`
(16) or more characters are invalid, a valid name may be at most 15
characters. -/
def isWireGuardInterfaceNameValid (name : String) : Except String Unit :=
  if name = "" then Except.error "interface name is empty"
  else if name.toList.contains ('/') then
    Except.error ("interface name " ++ name ++ " is invalid: contains / character")
  else if name.toList.any (fun c => c = ' ' ∨ c = '\t' ∨ c = '\n' ∨ c = '\r') then
    Except.error ("interface name " ++ name ++ " is invalid: contains whitespace")
  else if name.length ≥ 16 then
    Except.error ("interface name may be at most 15 characters; got " ++ Nat.repr name.length)
  else Except.ok ()

/-- `nextInterfaceName` from pkg/interfaces (wireguard.go): a static name is
returned on the first attempt and fails once a `last` exists; a wildcard
name substitutes `+` with `0` on the first attempt and otherwise strips the
base from `last`, parses the remaining decimal, increments it and
re-attaches it — only this incremented name is passed through
`IsWireGuardInterfaceNameValid`. -/
def nextInterfaceName (desired last : String) : Except String String :=
  if ¬ strHasSuffix desired ("+") then
    if last = "" then Except.ok desired
    else
      -- static interface name - since last != "" it must already exist
      Except.error ("interface \"" ++ last ++ "\" exists")
  else if last = "" then Except.ok (strReplaceAll desired ("+") ("0"))
  else
    let base := String.mk desired.toList.dropLast -- desired[:len(desired)-1]
    match parseUintDec (replaceFirstSub base.toList last.toList) with
    | none => Except.error "generating interface name"
    | some num =>
      let name := base ++ Nat.repr (num + 1)
      match isWireGuardInterfaceNameValid name with
      | Except.error e => Except.error e
      | Except.ok _ => Except.ok name

/-- `WireGuardInterfaceOptions` (the fields the analyzed claims use). -/
structure WGIfaceOptions where
  interfaceName : String
  driver : String
  port : Nat
  reuseExisting : Bool
deriving DecidableEq, Repr

/-- The observable world of the interface factory: which WireGuard devices
exist and whether the factory's wgctrl client socket is open. -/
structure IfaceWorld where
  devices : List String
  clientOpen : Bool
deriving DecidableEq, Repr

/-- The collaborators of `EnsureWireGuardInterface`:
`createOrReuseWGInterface` (driver selection, name rotation and device
creation — it adds the device it creates to the world) and
`ConfigureWireGuard` applying a listen port to a device. -/
structure EnsureEnv where
  createOrReuse : WGIfaceOptions → IfaceWorld → Except String (String × IfaceWorld)
  configurePort : String → Nat → IfaceWorld → Except String IfaceWorld

/-- `EnsureWireGuardInterface` from pkg/interfaces (wireguard.go): open a
wgctrl client, create or reuse the device, then — when the port option is
non-zero — apply the listen port to it.  The deferred cleanup closes the
wgctrl client when an error is returned; nothing else is unwound. -/
def ensureWireGuardInterface (env : EnsureEnv) (options : WGIfaceOptions)
    (w : IfaceWorld) : Except String String × IfaceWorld :=
  let w1 : IfaceWorld := { w with clientOpen := true } -- wgctrl.New()
  match env.createOrReuse options w1 with
  | Except.error e => (Except.error e, { w1 with clientOpen := false })
  | Except.ok (iface, w2) =>
    if options.port ≠ 0 then
      match env.configurePort iface options.port w2 with
      | Except.error _ =>
        -- the error is wrapped; the deferred close releases the client only
        (Except.error ("setting WireGuard listen port on " ++ iface), { w2 with clientOpen := false })
      | Except.ok w3 => (Except.ok iface, w3)
    else (Except.ok iface, w2)

/-! ## pkg/agent/peer_tracker.go — the peer reconciler

The watch events are single-threaded and every operation runs under the one
reconciler mutex, so the reconciler is modelled as a sequential state
machine.  `wgClient.ConfigureDevice` calls are recorded in an emitted call
list (the device mutations) and their success is decided by the
environment; `k8sToWgctrl` parses the public key and resolves the endpoint
through external libraries, so the environment supplies it as a function. -/

/-- `wgk8s.WireGuardPeerSpec` (the fields `reflect.DeepEqual` compares). -/
structure WGPeerSpec where
  publicKey : String
  presharedKey : String
  endpoint : String
  ips : List String
  routes : List String
  keepAliveSeconds : Nat
deriving DecidableEq, Repr

/-- A `wgk8s.WireGuardPeer` record: object metadata plus spec. -/
structure WGPeer where
  name : String
  ns : String
  selfLink : String
  spec : WGPeerSpec
deriving DecidableEq, Repr

/-- A `wgtypes.PeerConfig` as built by `k8sToWgctrl` (plus the `Remove`
flag `deletePeer` sets). -/
structure PeerConfig where
  publicKey : String
  endpoint : String
  keepalive : Option Nat
  remove : Bool
deriving DecidableEq, Repr

/-- A `wgtypes.Config` passed to `ConfigureDevice`. -/
structure WGConfig where
  replacePeers : Bool
  peers : List PeerConfig
deriving DecidableEq, Repr

/-- The `peerTracker` state: the peer map (an association list keyed by
self-link), the `initialConfigApplied` flag, the local peer record, the
interface name and the keepalive cap. -/
structure PeerTracker where
  iface : String
  peers : List (String × WGPeer)
  initialConfigApplied : Bool
  localPeer : WGPeer
  keepalive : Nat
deriving DecidableEq, Repr

/-- The reconciler's collaborators: `k8sToWgctrl` (key parsing and endpoint
resolution through external libraries) and the device-configure call's
result. -/
structure PTEnv where
  translate : WGPeer → Except String PeerConfig
  configure : String → WGConfig → Except String Unit

/-- Go map store `m[k] = v` on the association-list model. -/
def mapInsert (m : List (String × WGPeer)) (k : String) (v : WGPeer) :
    List (String × WGPeer) :=
  if m.any (fun kv => kv.1 == k) then
    m.map (fun kv => if kv.1 == k then (k, v) else kv)
  else m ++ [(k, v)]

/-- Go map `delete(m, k)` on the association-list model. -/
def mapErase (m : List (String × WGPeer)) (k : String) : List (String × WGPeer) :=
  m.filter (fun kv => !(kv.1 == k))

/-- `peerTracker.applyUpdate`: drop an update that is `reflect.DeepEqual`
to the cached record; otherwise store the record; before initial config is
applied stop there; afterwards translate the record and issue one
single-peer `ConfigureDevice` call.  Returns the new state, the device
calls issued, and the Go return value. -/
def applyUpdate (env : PTEnv) (pt : PeerTracker) (wgPeer : WGPeer) :
    PeerTracker × List WGConfig × Except String Unit :=
  let name := wgPeer.selfLink
  let dup : Bool := match pt.peers.lookup name with
    | some current => current == wgPeer
    | none => false
  if dup then (pt, [], Except.ok ()) -- no update
  else
    let pt := { pt with peers := mapInsert pt.peers name wgPeer }
    if ¬ pt.initialConfigApplied then (pt, [], Except.ok ())
    else
      match env.translate wgPeer with
      | Except.error e => (pt, [], Except.error e)
      | Except.ok peer =>
        let cfg : WGConfig := { replacePeers := false, peers := [peer] }
        (pt, [cfg], env.configure pt.iface cfg)

/-- `peerTracker.deletePeer`: unknown records are ignored; before initial
config the record is only removed from the map; afterwards the cached
record is translated and issued as a single-peer remove call (the source
does not remove it from the map in that branch). -/
def deletePeer (env : PTEnv) (pt : PeerTracker) (wgPeer : WGPeer) :
    PeerTracker × List WGConfig × Except String Unit :=
  let name := wgPeer.selfLink
  match pt.peers.lookup name with
  | none => (pt, [], Except.ok ()) -- never heard of it
  | some current =>
    if ¬ pt.initialConfigApplied then
      ({ pt with peers := mapErase pt.peers name }, [], Except.ok ())
    else
      match env.translate current with
      | Except.error e => (pt, [], Except.error e)
      | Except.ok peer =>
        let cfg : WGConfig := { replacePeers := false, peers := [{ peer with remove := true }] }
        (pt, [cfg], env.configure pt.iface cfg)

/-- `peerTracker.applyInitialConfig`: set `initialConfigApplied`, then
build one bulk `ConfigureDevice` call with `ReplacePeers` from every cached
peer, skipping records that fail translation. -/
def applyInitialConfig (env : PTEnv) (pt : PeerTracker) :
    PeerTracker × List WGConfig × Except String Unit :=
  let pt := { pt with initialConfigApplied := true }
  let peerConfigs := pt.peers.foldl (fun acc kv =>
    match env.translate kv.2 with
    | Except.error _ => acc -- warned and skipped
    | Except.ok pc => acc ++ [pc]) []
  let cfg : WGConfig := { replacePeers := true, peers := peerConfigs }
  (pt, [cfg], env.configure pt.iface cfg)

/-- `peerTracker.OnAdd`: drop the local peer's record (self-link match),
otherwise apply the update; the error is only logged. -/
def onAdd (env : PTEnv) (pt : PeerTracker) (wgPeer : WGPeer) :
    PeerTracker × List WGConfig :=
  if wgPeer.selfLink = pt.localPeer.selfLink then (pt, []) -- got ourselves, no-op
  else
    let (pt', calls, _) := applyUpdate env pt wgPeer
    (pt', calls)

/-- `peerTracker.OnUpdate`: the old record is ignored; otherwise as
`OnAdd`. -/
def onUpdate (env : PTEnv) (pt : PeerTracker) (_oldObj newObj : WGPeer) :
    PeerTracker × List WGConfig :=
  if newObj.selfLink = pt.localPeer.selfLink then (pt, [])
  else
    let (pt', calls, _) := applyUpdate env pt newObj
    (pt', calls)

/-- `peerTracker.OnDelete`: drop the local peer's record, otherwise delete;
the error is only logged. -/
def onDelete (env : PTEnv) (pt : PeerTracker) (wgPeer : WGPeer) :
    PeerTracker × List WGConfig :=
  if wgPeer.selfLink = pt.localPeer.selfLink then (pt, [])
  else
    let (pt', calls, _) := deletePeer env pt wgPeer
    (pt', calls)

/-- An occurrence in the reconciler's serialized history: one of the three
informer callbacks or the orchestrator's `applyInitialConfig` call. -/
inductive PTEvent where
  | add (p : WGPeer)
  | update (oldObj newObj : WGPeer)
  | delete (p : WGPeer)
  | applyInitial
deriving Repr

/-- One step of the reconciler. -/
def runEvent (env : PTEnv) (pt : PeerTracker) : PTEvent → PeerTracker × List WGConfig
  | PTEvent.add p => onAdd env pt p
  | PTEvent.update oldObj newObj => onUpdate env pt oldObj newObj
  | PTEvent.delete p => onDelete env pt p
  | PTEvent.applyInitial =>
    let (pt', calls, _) := applyInitialConfig env pt
    (pt', calls)

/-- The reconciler run over a serialized event history (the watch stream is
single-threaded and all operations hold the one mutex). -/
def runEvents (env : PTEnv) (pt : PeerTracker) : List PTEvent → PeerTracker
  | [] => pt
  | e :: rest => runEvents env (runEvent env pt e).1 rest

/-! ## Specification vocabulary and concrete inputs used by the theorems -/

/-- The numeric value of an address's byte string (big-endian), used to
state "plus one"/"minus one" relations between addresses. -/
def ipToNat (ip : List Nat) : Nat := ip.foldl (fun acc b => acc * 256 + b) 0

/-- The broadcast address of a network: network bits plus all-ones in the
host bits. -/
def broadcastBytes (ip mask : List Nat) : List Nat :=
  List.zipWith Nat.lor (byteSliceNot mask) ip

/-- C1 input: the range `10.0.0.0/30` with `start = 10.0.0.1` and
`end = 10.0.0.2` (16-byte forms, as `net.ParseIP` returns them). -/
def c1Range : IPRange :=
  ⟨⟨[10, 0, 0, 0], cidrMask 30 32⟩, v4InV6Prefix ++ [10, 0, 0, 1], v4InV6Prefix ++ [10, 0, 0, 2]⟩

/-- C1 input: the pool holding `c1Range` with `10.0.0.1` in use — the free
address `10.0.0.2` lies inside `[start, end]`. -/
def c1Pool : IPPool := ⟨"ns:pool", ["10.0.0.1"], [c1Range]⟩

/-- C2 input: the caller's owner reference. -/
def c2Owner : OwnerReference := ⟨"peer-a", "wgmesh.jcodybaker.com/v1alpha1", "WireGuardPeer"⟩

/-- C2 input: a pool of one range `10.0.0.0/30` with default bounds. -/
def c2PoolSpec : IPPoolSpec := ⟨[⟨"10.0.0.0/30", "", ""⟩], []⟩

/-- Whether a stored claim's owner references match `c2Owner` by name,
version and kind (the `loadPool` matching rule). -/
def c2MatchesOwner (c : IPClaim) : Bool :=
  c.ownerReferences.any (fun o =>
    o.name == c2Owner.name && o.apiVersion == c2Owner.apiVersion && o.kind == c2Owner.kind)

/-- C3 input: a /23 mask — the smallest IPv4 host space (9 bits) whose
increment walk has to carry across a byte boundary. -/
def c3Mask : List Nat := cidrMask 23 32

/-- C3 input: the network address of `10.0.0.0/23`. -/
def c3Addr : IPNet := ⟨[10, 0, 0, 0], c3Mask⟩

/-- C5 input: a `createOrReuseWGInterface` that creates device `wg0`
(modelling a successful kernel-driver creation) and a port configuration
that always fails. -/
def c5Env : EnsureEnv :=
  ⟨fun _ w => Except.ok ("wg0", { w with devices := w.devices ++ ["wg0"] }),
   fun _ _ _ => Except.error "configure failed"⟩

/-- C5 input: options requesting a non-zero listen port. -/
def c5Options : WGIfaceOptions := ⟨"wg0", "kernel", 51820, false⟩

/-- A peer record used by the reconciler scenarios. -/
def ptPeerA : WGPeer := ⟨"peer-a", "ns", "/registry/peers/peer-a", ⟨"pkA", "pskA", "1.2.3.4:51820", [], [], 0⟩⟩

/-- The local peer record used by the reconciler scenarios. -/
def ptLocal : WGPeer := ⟨"me", "ns", "/registry/peers/me", ⟨"pkL", "pskL", "5.6.7.8:51820", [], [], 0⟩⟩

/-- C6 input: an environment whose translation fails and whose
device-configure call succeeds (the claim must hold for any). -/
def c6Env : PTEnv := ⟨fun _ => Except.error "bad key", fun _ _ => Except.ok ()⟩

/-- C6 input: a tracker that has not yet applied its initial config. -/
def c6State : PeerTracker := ⟨"wg0", [], false, ptLocal, 0⟩

/-- C10 input: translation always succeeds, the device-configure call
always fails. -/
def c10Env : PTEnv :=
  ⟨fun p => Except.ok ⟨p.spec.publicKey, p.spec.endpoint, none, false⟩,
   fun _ _ => Except.error "device error"⟩

/-- C10 input: a tracker already caching `ptPeerA`, initial config not yet
applied. -/
def c10State : PeerTracker := ⟨"wg0", [(ptPeerA.selfLink, ptPeerA)], false, ptLocal, 0⟩

/-! ## Theorems -/

/-- C1: the claim states that `findAddress` skips an address exactly when
it is outside `[start, end]` or in use, and fails with
`NoAvailableAddresses` only when every range is exhausted.  The code
violates this: both bounds tests compare against `r.start` (with inverted
comparison directions), so every address other than `r.start` is skipped.
On a pool whose range `10.0.0.0/30` has `start = 10.0.0.1`,
`end = 10.0.0.2` and `in_use = {10.0.0.1}`, the free address `10.0.0.2`
satisfies `start ≤ 10.0.0.2 ≤ end` and is not in use, yet `findAddress`
(probed from the random draw `10.0.0.0`) returns the
no-available-addresses error. -/
theorem c1_findAddress_returns_noAvailable_despite_free_address :
    ipPoolFindAddress c1Pool [[0, 0, 0, 0]] = Except.error "no available IP addresses" ∧
    ipLess true c1Range.startIP (v4InV6Prefix ++ [10, 0, 0, 2]) = Except.ok true ∧
    ipLess true (v4InV6Prefix ++ [10, 0, 0, 2]) c1Range.endIP = Except.ok true ∧
    c1Pool.inUse.contains (ipString [10, 0, 0, 2]) = false := by
  refine ⟨?_, ?_, ?_, ?_⟩ <;> rfl

/-- C2: the claim states that after a successful `ClaimIPs` call exactly
`n` claim objects match the caller's owner reference and each returned
address has a claim record recording it.  The code creates every claim
with only its name and namespace set — no owner references and an empty
`Spec` — so after claiming one address from a fresh pool the registry
holds one claim with no owner references and an empty address, zero claims
match the owner, and the returned address `10.0.0.1` is recorded nowhere. -/
theorem c2_claimIPs_persists_ownerless_recordless_claims :
    claimIPs [] c2PoolSpec "ns" "pool" c2Owner 1 [0] [[[0, 0, 0, 0]]] 4 =
      Except.ok ([⟨[10, 0, 0, 1], [255, 255, 255, 252]⟩],
        [⟨"pool-10-0-0-1", "ns", "", [], ""⟩]) ∧
    (([⟨"pool-10-0-0-1", "ns", "", [], ""⟩] : List IPClaim).filter c2MatchesOwner).length = 0 ∧
    (⟨"pool-10-0-0-1", "ns", "", [], ""⟩ : IPClaim).ip ≠ ipString [10, 0, 0, 1] := by
  refine ⟨?_, ?_, ?_⟩
  · rfl
  · rfl
  · decide

set_option maxRecDepth 20000 in
/-- C3: the claim states that `incrementIP` carries through the host bytes
and is a cyclic permutation of the network's host addresses: applying it
`2^host_bits` times yields the start address again exactly once.  The code
violates this: `byteSliceIncrement` recurses on `b[:last-1]`, skipping the
byte at `last-1`, so on `10.0.0.0/23` (9 host bits) incrementing
`10.0.0.255` yields `10.0.0.0` instead of `10.0.1.0`, and the walk from
`10.0.0.0` returns to it after 256 steps — hence twice, not once, within
`2^9 = 512` applications. -/
theorem c3_incrementIP_not_cyclic :
    incrementIP ⟨[10, 0, 0, 255], c3Mask⟩ = Except.ok ⟨[10, 0, 0, 0], c3Mask⟩ ∧
    maskSize c3Mask = (23, 32) ∧
    incrementIPn 256 c3Addr = Except.ok c3Addr ∧
    incrementIPn 512 c3Addr = Except.ok c3Addr := by
  refine ⟨?_, ?_, ?_, ?_⟩ <;> rfl

/-- C4 counterexample: the claim states that every generated name is
validated against the platform's rules, so a name grown past the platform
maximum fails with an invalid-interface-name error.  The wildcard
substitution branch does not validate: from the 17-character wildcard
`aaaaaaaaaaaaaaaa+` with no previous name, `nextInterfaceName` returns the
17-character name `aaaaaaaaaaaaaaaa0` successfully, although the platform
validator rejects any name of 16 or more characters. -/
theorem c4_generated_name_not_validated :
    nextInterfaceName "aaaaaaaaaaaaaaaa+" "" = Except.ok "aaaaaaaaaaaaaaaa0" ∧
    ("aaaaaaaaaaaaaaaa0" : String).length = 17 ∧
    isWireGuardInterfaceNameValid "aaaaaaaaaaaaaaaa0" =
      Except.error "interface name may be at most 15 characters; got 17" := by
  refine ⟨?_, ?_, ?_⟩ <;> rfl

/-- C4 (amended): `nextInterfaceName` behaves as claimed on all four input
shapes — static/empty returns the desired name, static/taken fails,
wildcard/empty substitutes `+` with `0`, wildcard/taken increments the
trailing decimal (`wg+`/`wg10` gives `wg11`) — but only the names produced
by the increment branch are validated against the platform's rules (names
from the static and first-wildcard branches are returned unvalidated), so
it is the names grown through increment past the platform maximum that
fail with the invalid-interface-name error. -/
theorem c4_nextInterfaceName_behaviour :
    (∀ desired : String, strHasSuffix desired ("+") = false →
      nextInterfaceName desired "" = Except.ok desired) ∧
    (∀ desired last : String, strHasSuffix desired ("+") = false → last ≠ "" →
      nextInterfaceName desired last =
        Except.error ("interface \"" ++ last ++ "\" exists")) ∧
    (∀ desired : String, strHasSuffix desired ("+") = true →
      nextInterfaceName desired "" = Except.ok (strReplaceAll desired ("+") ("0"))) ∧
    nextInterfaceName "wg+" "wg10" = Except.ok "wg11" ∧
    (∀ desired last name : String, strHasSuffix desired ("+") = true → last ≠ "" →
      nextInterfaceName desired last = Except.ok name →
      isWireGuardInterfaceNameValid name = Except.ok ()) ∧
    nextInterfaceName "w+" ("w" ++ String.mk (List.replicate 14 '9')) =
      Except.error "interface name may be at most 15 characters; got 16" := by
  refine ⟨?_, ?_, ?_, by rfl, ?_, by rfl⟩
  · intro desired h
    simp [nextInterfaceName, h]
  · intro desired last h hlast
    simp [nextInterfaceName, h, hlast]
  · intro desired h
    simp [nextInterfaceName, h]
  · intro desired last name h hlast hok
    simp only [nextInterfaceName, h, if_neg hlast] at hok
    rcases hp : parseUintDec (replaceFirstSub (String.mk desired.toList.dropLast).toList last.toList) with _ | num
    · rw [hp] at hok
      simp at hok
    · rw [hp] at hok
      simp only [Bool.not_true, Bool.false_eq_true, not_true_eq_false, if_false] at hok
      rcases hv : isWireGuardInterfaceNameValid
          (String.mk desired.toList.dropLast ++ Nat.repr (num + 1)) with e | u
      · rw [hv] at hok
        simp at hok
      · rw [hv] at hok
        cases u
        simp only [Except.ok.injEq] at hok
        rw [← hok]
        exact hv

/-- C4 witness: the general parts of `c4_nextInterfaceName_behaviour`
instantiated: the static name `wg0`, a taken static name, the first
wildcard name for `wg+`, and the validation of the incremented name
`wg11`. -/
theorem c4_nextInterfaceName_behaviour_witness :
    nextInterfaceName "wg0" "" = Except.ok "wg0" ∧
    nextInterfaceName "wg0" "wg0" = Except.error ("interface \"" ++ "wg0" ++ "\" exists") ∧
    nextInterfaceName "wg+" "" = Except.ok (strReplaceAll "wg+" ("+") ("0")) ∧
    isWireGuardInterfaceNameValid "wg11" = Except.ok () :=
  ⟨c4_nextInterfaceName_behaviour.1 "wg0" (by rfl),
   c4_nextInterfaceName_behaviour.2.1 "wg0" "wg0" (by rfl) (by decide),
   c4_nextInterfaceName_behaviour.2.2.1 "wg+" (by rfl),
   c4_nextInterfaceName_behaviour.2.2.2.2.1 "wg+" "wg10" "wg11" (by rfl) (by decide)
     c4_nextInterfaceName_behaviour.2.2.2.1⟩

/-- C5 counterexample: the claim states that a failure of the
port-configuration step unwinds the newly created device before the error
is returned.  In the code, the deferred cleanup only closes the wgctrl
client: with a `createOrReuseWGInterface` that creates `wg0` and a port
configuration that fails, `EnsureWireGuardInterface` returns the error
while `wg0` is still present in the device list. -/
theorem c5_device_survives_port_failure :
    (ensureWireGuardInterface c5Env c5Options ⟨[], false⟩).1 =
      Except.error "setting WireGuard listen port on wg0" ∧
    (ensureWireGuardInterface c5Env c5Options ⟨[], false⟩).2.devices = ["wg0"] := by
  refine ⟨?_, ?_⟩ <;> rfl

/-- C5 (amended): when the port option is non-zero the port is applied to
the device immediately after creation, and when this port configuration
fails the error is returned after closing the wgctrl client only — the
created device is not unwound: the final world is the post-creation world
with just the client closed, its device list intact. -/
theorem c5_port_failure_closes_client_only
    (env : EnsureEnv) (options : WGIfaceOptions) (w : IfaceWorld)
    (iface : String) (w2 : IfaceWorld) (e : String)
    (hport : options.port ≠ 0)
    (hcreate : env.createOrReuse options { w with clientOpen := true } = Except.ok (iface, w2))
    (hconf : env.configurePort iface options.port w2 = Except.error e) :
    ensureWireGuardInterface env options w =
      (Except.error ("setting WireGuard listen port on " ++ iface),
       { w2 with clientOpen := false }) := by
  simp [ensureWireGuardInterface, hcreate, hconf, hport]

/-- C5 witness: `c5_port_failure_closes_client_only` at the concrete
environment that creates `wg0` and fails port configuration. -/
theorem c5_port_failure_closes_client_only_witness :
    ensureWireGuardInterface c5Env c5Options ⟨[], false⟩ =
      (Except.error ("setting WireGuard listen port on " ++ "wg0"),
       { devices := ["wg0"], clientOpen := false }) :=
  c5_port_failure_closes_client_only c5Env c5Options ⟨[], false⟩ "wg0"
    ⟨["wg0"], true⟩ "configure failed" (by decide) (by rfl) (by rfl)

/-- C6: before `applyInitialConfig` has run — in every state whose
`initialConfigApplied` flag is false — `applyUpdate` and `deletePeer` only
update the in-memory peer map: neither issues a `ConfigureDevice` call,
for every environment and every peer record. -/
theorem c6_no_device_call_before_initial_config
    (env : PTEnv) (pt : PeerTracker) (p : WGPeer)
    (h : pt.initialConfigApplied = false) :
    (applyUpdate env pt p).2.1 = [] ∧ (deletePeer env pt p).2.1 = [] := by
  constructor
  · unfold applyUpdate
    rcases hl : pt.peers.lookup p.selfLink with _ | current
    · simp [hl, h]
    · by_cases hd : current == p
      · simp [hl, hd]
      · simp [hl, hd, h]
  · unfold deletePeer
    rcases hl : pt.peers.lookup p.selfLink with _ | current
    · simp [hl]
    · simp [hl, h]

/-- C6 witness: `c6_no_device_call_before_initial_config` at a concrete
environment, a concrete tracker with the flag false, and a concrete peer. -/
theorem c6_no_device_call_before_initial_config_witness :
    (applyUpdate c6Env c6State ptPeerA).2.1 = [] ∧
    (deletePeer c6Env c6State ptPeerA).2.1 = [] :=
  c6_no_device_call_before_initial_config c6Env c6State ptPeerA rfl

/-- Keys of the peer map satisfy `p` after a `mapInsert` of a key
satisfying `p`, provided they all did before. -/
theorem mapInsert_keys (p : String → Bool) (m : List (String × WGPeer)) (k : String)
    (v : WGPeer) (hk : p k = true) (hm : ∀ kv ∈ m, p kv.1 = true) :
    ∀ kv ∈ mapInsert m k v, p kv.1 = true := by
  intro kv hkv
  unfold mapInsert at hkv
  split at hkv
  · obtain ⟨kv0, hkv0, heq⟩ := List.mem_map.mp hkv
    by_cases hk0 : kv0.1 == k
    · rw [if_pos hk0] at heq
      rw [← heq]
      exact hk
    · rw [if_neg hk0] at heq
      rw [← heq]
      exact hm kv0 hkv0
  · rcases List.mem_append.mp hkv with hin | hone
    · exact hm kv hin
    · rw [List.mem_singleton.mp hone]
      exact hk

/-- Keys of the peer map satisfy `p` after a `mapErase`, provided they all
did before. -/
theorem mapErase_keys (p : String → Bool) (m : List (String × WGPeer)) (k : String)
    (hm : ∀ kv ∈ m, p kv.1 = true) :
    ∀ kv ∈ mapErase m k, p kv.1 = true := by
  intro kv hkv
  exact hm kv (List.mem_of_mem_filter hkv)

/-- The state after `applyUpdate` is either unchanged (with no device
call) or has the record inserted at its self-link; nothing else of the
state changes. -/
theorem applyUpdate_fst (env : PTEnv) (pt : PeerTracker) (p : WGPeer) :
    ((applyUpdate env pt p).1 = pt ∧ (applyUpdate env pt p).2.1 = []) ∨
    (applyUpdate env pt p).1 = { pt with peers := mapInsert pt.peers p.selfLink p } := by
  unfold applyUpdate
  rcases hl : pt.peers.lookup p.selfLink with _ | current
  · simp only [hl]
    by_cases hflag : pt.initialConfigApplied
    · rcases htr : env.translate p with e | pc <;> simp [htr, hflag]
    · simp [hflag]
  · by_cases hd : current == p
    · simp only [hl, hd]
      exact Or.inl ⟨rfl, rfl⟩
    · simp only [hl, hd]
      by_cases hflag : pt.initialConfigApplied
      · rcases htr : env.translate p with e | pc <;> simp [htr, hflag]
      · simp [hflag]

/-- The state after `deletePeer` is either unchanged or has the self-link
erased from the map; nothing else of the state changes. -/
theorem deletePeer_fst (env : PTEnv) (pt : PeerTracker) (p : WGPeer) :
    (deletePeer env pt p).1 = pt ∨
    (deletePeer env pt p).1 = { pt with peers := mapErase pt.peers p.selfLink } := by
  unfold deletePeer
  rcases hl : pt.peers.lookup p.selfLink with _ | current
  · simp [hl]
  · simp only [hl]
    by_cases hflag : pt.initialConfigApplied
    · rcases htr : env.translate current with e | pc <;> simp [htr, hflag]
    · simp [hflag]

/-- `applyInitialConfig` only sets the flag. -/
theorem applyInitialConfig_fst (env : PTEnv) (pt : PeerTracker) :
    (applyInitialConfig env pt).1 = { pt with initialConfigApplied := true } := rfl

/-- `applyUpdate` preserves the local-peer field. -/
theorem applyUpdate_localPeer (env : PTEnv) (pt : PeerTracker) (p : WGPeer) :
    (applyUpdate env pt p).1.localPeer = pt.localPeer := by
  rcases applyUpdate_fst env pt p with ⟨h, _⟩ | h <;> rw [h]

/-- `applyUpdate` preserves the `initialConfigApplied` flag. -/
theorem applyUpdate_flag (env : PTEnv) (pt : PeerTracker) (p : WGPeer) :
    (applyUpdate env pt p).1.initialConfigApplied = pt.initialConfigApplied := by
  rcases applyUpdate_fst env pt p with ⟨h, _⟩ | h <;> rw [h]

/-- `deletePeer` preserves the local-peer field. -/
theorem deletePeer_localPeer (env : PTEnv) (pt : PeerTracker) (p : WGPeer) :
    (deletePeer env pt p).1.localPeer = pt.localPeer := by
  rcases deletePeer_fst env pt p with h | h <;> rw [h]

/-- `deletePeer` preserves the `initialConfigApplied` flag. -/
theorem deletePeer_flag (env : PTEnv) (pt : PeerTracker) (p : WGPeer) :
    (deletePeer env pt p).1.initialConfigApplied = pt.initialConfigApplied := by
  rcases deletePeer_fst env pt p with h | h <;> rw [h]

/-- `OnAdd` past the self-link guard is `applyUpdate` with the error
dropped. -/
theorem onAdd_eq (env : PTEnv) (pt : PeerTracker) (p : WGPeer)
    (h : ¬ p.selfLink = pt.localPeer.selfLink) :
    onAdd env pt p = ((applyUpdate env pt p).1, (applyUpdate env pt p).2.1) := by
  unfold onAdd
  rw [if_neg h]

/-- `OnUpdate` past the self-link guard is `applyUpdate` with the error
dropped. -/
theorem onUpdate_eq (env : PTEnv) (pt : PeerTracker) (oldObj newObj : WGPeer)
    (h : ¬ newObj.selfLink = pt.localPeer.selfLink) :
    onUpdate env pt oldObj newObj = ((applyUpdate env pt newObj).1, (applyUpdate env pt newObj).2.1) := by
  unfold onUpdate
  rw [if_neg h]

/-- `OnDelete` past the self-link guard is `deletePeer` with the error
dropped. -/
theorem onDelete_eq (env : PTEnv) (pt : PeerTracker) (p : WGPeer)
    (h : ¬ p.selfLink = pt.localPeer.selfLink) :
    onDelete env pt p = ((deletePeer env pt p).1, (deletePeer env pt p).2.1) := by
  unfold onDelete
  rw [if_neg h]

/-- One reconciler event preserves "the local peer is `l` and no map key is
`l`'s self-link". -/
theorem runEvent_preserves_no_local (env : PTEnv) (pt : PeerTracker) (l : WGPeer)
    (e : PTEvent) (hloc : pt.localPeer = l)
    (hmap : ∀ kv ∈ pt.peers, (!(kv.1 == l.selfLink)) = true) :
    (runEvent env pt e).1.localPeer = l ∧
    ∀ kv ∈ (runEvent env pt e).1.peers, (!(kv.1 == l.selfLink)) = true := by
  cases e with
  | add p =>
    by_cases hself : p.selfLink = pt.localPeer.selfLink
    · have hg : runEvent env pt (PTEvent.add p) = (pt, []) := by
        show onAdd env pt p = (pt, [])
        unfold onAdd
        rw [if_pos hself]
      rw [hg]
      exact ⟨hloc, hmap⟩
    · have hg : runEvent env pt (PTEvent.add p) =
          ((applyUpdate env pt p).1, (applyUpdate env pt p).2.1) := onAdd_eq env pt p hself
      rw [hg]
      refine ⟨(applyUpdate_localPeer env pt p).trans hloc, ?_⟩
      have hne : ¬ p.selfLink = l.selfLink := hloc ▸ hself
      rcases applyUpdate_fst env pt p with ⟨h, _⟩ | h <;> rw [h]
      · exact hmap
      · exact mapInsert_keys (fun s => !(s == l.selfLink)) pt.peers p.selfLink p
          (by simp [hne]) hmap
  | update oldObj newObj =>
    by_cases hself : newObj.selfLink = pt.localPeer.selfLink
    · have hg : runEvent env pt (PTEvent.update oldObj newObj) = (pt, []) := by
        show onUpdate env pt oldObj newObj = (pt, [])
        unfold onUpdate
        rw [if_pos hself]
      rw [hg]
      exact ⟨hloc, hmap⟩
    · have hg : runEvent env pt (PTEvent.update oldObj newObj) =
          ((applyUpdate env pt newObj).1, (applyUpdate env pt newObj).2.1) :=
        onUpdate_eq env pt oldObj newObj hself
      rw [hg]
      refine ⟨(applyUpdate_localPeer env pt newObj).trans hloc, ?_⟩
      have hne : ¬ newObj.selfLink = l.selfLink := hloc ▸ hself
      rcases applyUpdate_fst env pt newObj with ⟨h, _⟩ | h <;> rw [h]
      · exact hmap
      · exact mapInsert_keys (fun s => !(s == l.selfLink)) pt.peers newObj.selfLink newObj
          (by simp [hne]) hmap
  | delete p =>
    by_cases hself : p.selfLink = pt.localPeer.selfLink
    · have hg : runEvent env pt (PTEvent.delete p) = (pt, []) := by
        show onDelete env pt p = (pt, [])
        unfold onDelete
        rw [if_pos hself]
      rw [hg]
      exact ⟨hloc, hmap⟩
    · have hg : runEvent env pt (PTEvent.delete p) =
          ((deletePeer env pt p).1, (deletePeer env pt p).2.1) := onDelete_eq env pt p hself
      rw [hg]
      refine ⟨(deletePeer_localPeer env pt p).trans hloc, ?_⟩
      rcases deletePeer_fst env pt p with h | h <;> rw [h]
      · exact hmap
      · exact mapErase_keys (fun s => !(s == l.selfLink)) pt.peers p.selfLink hmap
  | applyInitial =>
    have hg : (runEvent env pt PTEvent.applyInitial).1 = { pt with initialConfigApplied := true } := rfl
    rw [hg]
    exact ⟨hloc, hmap⟩

/-- C7: in every state reachable from the reconciler's start state (an
empty peer map, as `configureWireGuardPeers` builds it) through any
sequence of `OnAdd`/`OnUpdate`/`OnDelete` callbacks and
`applyInitialConfig` calls, under any environment, the peer map contains no
entry whose self-link equals the local peer's self-link. -/
theorem c7_local_peer_never_in_map (env : PTEnv) (iface : String) (b : Bool)
    (localPeer : WGPeer) (ka : Nat) (events : List PTEvent) :
    ∀ kv ∈ (runEvents env ⟨iface, [], b, localPeer, ka⟩ events).peers,
      (!(kv.1 == localPeer.selfLink)) = true := by
  suffices h : ∀ (pt : PeerTracker) (events : List PTEvent), pt.localPeer = localPeer →
      (∀ kv ∈ pt.peers, (!(kv.1 == localPeer.selfLink)) = true) →
      ∀ kv ∈ (runEvents env pt events).peers, (!(kv.1 == localPeer.selfLink)) = true by
    exact h ⟨iface, [], b, localPeer, ka⟩ events rfl (by intro kv hkv; cases hkv)
  intro pt events
  induction events generalizing pt with
  | nil => intro _ hmap; exact hmap
  | cons e rest ih =>
    intro hloc hmap
    have step := runEvent_preserves_no_local env pt localPeer e hloc hmap
    exact ih (runEvent env pt e).1 step.1 step.2

/-- C7 witness: `c7_local_peer_never_in_map` applied to a concrete run —
after `OnAdd` of `ptPeerA` from the empty map, the entry that is in the
map is keyed by a self-link different from the local one. -/
theorem c7_local_peer_never_in_map_witness :
    (!((ptPeerA.selfLink, ptPeerA).1 == ptLocal.selfLink)) = true :=
  c7_local_peer_never_in_map c6Env "wg0" false ptLocal 0 [PTEvent.add ptPeerA]
    (ptPeerA.selfLink, ptPeerA) (by decide)

/-- C10 counterexample: the claim states that after `applyInitialConfig`
(even a failed one) every later add/update/delete event triggers its own
single-peer device-configure call.  A later update carrying a record
`reflect.DeepEqual` to the cached one is a no-op: after the bulk call
fails, the flag is set, yet re-delivering the cached `ptPeerA` through
`OnUpdate` issues no device call at all. -/
theorem c10_noop_update_after_failed_bulk_apply :
    (applyInitialConfig c10Env c10State).1.initialConfigApplied = true ∧
    (applyInitialConfig c10Env c10State).2.2 = Except.error "device error" ∧
    (onUpdate c10Env (applyInitialConfig c10Env c10State).1 ptPeerA ptPeerA).2 = [] := by
  refine ⟨?_, ?_, ?_⟩ <;> rfl

/-- C10 (amended): `applyInitialConfig` sets `initialConfigApplied`
unconditionally — also when its bulk `ConfigureDevice` call fails — no
reconciler operation ever clears the flag, and afterwards every
add/update/delete event that actually changes the tracked peer (the update
is not `DeepEqual` to the cached record; the delete concerns a cached
record) and whose record translates successfully triggers exactly one
single-peer device-configure call. -/
theorem c10_flag_monotone_and_later_events_configure :
    (∀ (env : PTEnv) (pt : PeerTracker),
      (applyInitialConfig env pt).1.initialConfigApplied = true) ∧
    (∀ (env : PTEnv) (pt : PeerTracker) (e : PTEvent),
      pt.initialConfigApplied = true →
      (runEvent env pt e).1.initialConfigApplied = true) ∧
    (∀ (env : PTEnv) (pt : PeerTracker) (p : WGPeer) (pc : PeerConfig),
      pt.initialConfigApplied = true →
      (∀ current, pt.peers.lookup p.selfLink = some current → current ≠ p) →
      env.translate p = Except.ok pc →
      (applyUpdate env pt p).2.1 = [⟨false, [pc]⟩]) ∧
    (∀ (env : PTEnv) (pt : PeerTracker) (p current : WGPeer) (pc : PeerConfig),
      pt.initialConfigApplied = true →
      pt.peers.lookup p.selfLink = some current →
      env.translate current = Except.ok pc →
      (deletePeer env pt p).2.1 = [⟨false, [{ pc with remove := true }]⟩]) := by
  refine ⟨?_, ?_, ?_, ?_⟩
  · intro env pt
    unfold applyInitialConfig
    rfl
  · intro env pt e h
    cases e with
    | add p =>
      by_cases hself : p.selfLink = pt.localPeer.selfLink
      · have hg : runEvent env pt (PTEvent.add p) = (pt, []) := by
          show onAdd env pt p = (pt, [])
          unfold onAdd
          rw [if_pos hself]
        rw [hg]
        exact h
      · have hg : runEvent env pt (PTEvent.add p) =
            ((applyUpdate env pt p).1, (applyUpdate env pt p).2.1) := onAdd_eq env pt p hself
        rw [hg]
        exact (applyUpdate_flag env pt p).trans h
    | update oldObj newObj =>
      by_cases hself : newObj.selfLink = pt.localPeer.selfLink
      · have hg : runEvent env pt (PTEvent.update oldObj newObj) = (pt, []) := by
          show onUpdate env pt oldObj newObj = (pt, [])
          unfold onUpdate
          rw [if_pos hself]
        rw [hg]
        exact h
      · have hg : runEvent env pt (PTEvent.update oldObj newObj) =
            ((applyUpdate env pt newObj).1, (applyUpdate env pt newObj).2.1) :=
          onUpdate_eq env pt oldObj newObj hself
        rw [hg]
        exact (applyUpdate_flag env pt newObj).trans h
    | delete p =>
      by_cases hself : p.selfLink = pt.localPeer.selfLink
      · have hg : runEvent env pt (PTEvent.delete p) = (pt, []) := by
          show onDelete env pt p = (pt, [])
          unfold onDelete
          rw [if_pos hself]
        rw [hg]
        exact h
      · have hg : runEvent env pt (PTEvent.delete p) =
            ((deletePeer env pt p).1, (deletePeer env pt p).2.1) := onDelete_eq env pt p hself
        rw [hg]
        exact (deletePeer_flag env pt p).trans h
    | applyInitial =>
      rfl
  · intro env pt p pc h hfresh htr
    unfold applyUpdate
    rcases hl : pt.peers.lookup p.selfLink with _ | current
    · simp [hl, h, htr]
    · have : (current == p) = false := by
        simp only [beq_eq_false_iff_ne]
        exact hfresh current hl
      simp [hl, this, h, htr]
  · intro env pt p current pc h hl htr
    unfold deletePeer
    simp [hl, h, htr]

/-- C10 witness: the amended theorem instantiated — the flag survives a
no-op update event after a failed bulk apply, a fresh peer record triggers
one single-peer call, and deleting the cached `ptPeerA` triggers one
single-peer remove call. -/
theorem c10_flag_monotone_and_later_events_configure_witness :
    (applyInitialConfig c10Env c10State).1.initialConfigApplied = true ∧
    (runEvent c10Env (applyInitialConfig c10Env c10State).1
      (PTEvent.update ptPeerA ptPeerA)).1.initialConfigApplied = true ∧
    (applyUpdate c10Env (applyInitialConfig c10Env c10State).1 ptLocal).2.1 =
      [⟨false, [⟨"pkL", "5.6.7.8:51820", none, false⟩]⟩] ∧
    (deletePeer c10Env (applyInitialConfig c10Env c10State).1 ptPeerA).2.1 =
      [⟨false, [⟨"pkA", "1.2.3.4:51820", none, true⟩]⟩] :=
  ⟨c10_flag_monotone_and_later_events_configure.1 c10Env c10State,
   c10_flag_monotone_and_later_events_configure.2.1 c10Env
     (applyInitialConfig c10Env c10State).1 (PTEvent.update ptPeerA ptPeerA)
     (c10_flag_monotone_and_later_events_configure.1 c10Env c10State),
   c10_flag_monotone_and_later_events_configure.2.2.1 c10Env
     (applyInitialConfig c10Env c10State).1 ptLocal ⟨"pkL", "5.6.7.8:51820", none, false⟩
     (c10_flag_monotone_and_later_events_configure.1 c10Env c10State)
     (by
       intro current hcur
       have hnone : (applyInitialConfig c10Env c10State).1.peers.lookup ptLocal.selfLink =
           (none : Option WGPeer) := rfl
       rw [hnone] at hcur
       cases hcur)
     (by rfl),
   c10_flag_monotone_and_later_events_configure.2.2.2 c10Env
     (applyInitialConfig c10Env c10State).1 ptPeerA ptPeerA ⟨"pkA", "1.2.3.4:51820", none, false⟩
     (c10_flag_monotone_and_later_events_configure.1 c10Env c10State)
     (by rfl) (by rfl)⟩

/-- `net.CIDRMask(n, 32)` round-trips through `IPMask.Size`. -/
theorem maskSize_cidrMask32 (n : Nat) (h : n ≤ 32) : maskSize (cidrMask n 32) = (n, 32) := by
  interval_cases n <;> decide

/-- C8: the characterization of `canonicalIPInCIDR`.  With a 32-bit mask
the address is returned as its (unchanged) 4-byte form; with a 128-bit
mask, an IPv4-mapped address (one `To4` accepts, i.e. with prefix
`::ffff:0:0/96`) is an error when the mask length is below 96 and otherwise
becomes the 4-byte address under a 32-bit mask of length `original - 96`;
a non-IPv4-mapped 16-byte address is returned in its 16-byte form; any
other mask size is an error.  Concretely, `::ffff:c0a8:100/124` yields
address bytes `[192,168,1,0]` and the mask of length 28 out of 32 bits. -/
theorem c8_canonicalIPInCIDR_characterization :
    (∀ (mask : List Nat) (o : Nat) (ip ip4 : List Nat),
      maskSize mask = (o, 32) → to4 ip = some ip4 →
      canonicalIPInCIDR ⟨ip, mask⟩ = Except.ok ⟨ip4, mask⟩) ∧
    (∀ (mask : List Nat) (o : Nat) (ip ip4 : List Nat),
      maskSize mask = (o, 128) → to4 ip = some ip4 → o < 96 →
      canonicalIPInCIDR ⟨ip, mask⟩ = Except.error "IPv6 CIDR includes both v4 and v6 space") ∧
    (∀ (mask : List Nat) (o : Nat) (ip ip4 : List Nat),
      maskSize mask = (o, 128) → to4 ip = some ip4 → 96 ≤ o → o ≤ 128 →
      canonicalIPInCIDR ⟨ip, mask⟩ = Except.ok ⟨ip4, cidrMask (o - 96) 32⟩ ∧
      maskSize (cidrMask (o - 96) 32) = (o - 96, 32)) ∧
    (∀ (mask : List Nat) (o : Nat) (ip : List Nat),
      maskSize mask = (o, 128) → to4 ip = none → ip.length = 16 →
      canonicalIPInCIDR ⟨ip, mask⟩ = Except.ok ⟨ip, mask⟩) ∧
    (∀ (mask : List Nat) (o s : Nat) (ip : List Nat),
      maskSize mask = (o, s) → s ≠ 32 → s ≠ 128 →
      canonicalIPInCIDR ⟨ip, mask⟩ = Except.error "invalid mask") ∧
    (canonicalIPInCIDR ⟨v4InV6Prefix ++ [192, 168, 1, 0], cidrMask 124 128⟩ =
      Except.ok ⟨[192, 168, 1, 0], cidrMask 28 32⟩ ∧
      maskSize (cidrMask 28 32) = (28, 32) ∧ cidrMask 28 32 = [255, 255, 255, 240]) := by
  refine ⟨?_, ?_, ?_, ?_, ?_, by rfl, by rfl, by rfl⟩
  · intro mask o ip ip4 hm h4
    simp [canonicalIPInCIDR, hm, h4]
  · intro mask o ip ip4 hm h4 ho
    simp [canonicalIPInCIDR, hm, h4, ho, (by omega : ¬ (128 = 32))]
  · intro mask o ip ip4 hm h4 ho hle
    constructor
    · simp [canonicalIPInCIDR, hm, h4, Nat.not_lt.mpr ho]
    · exact maskSize_cidrMask32 (o - 96) (by omega)
  · intro mask o ip hm h4 h16
    simp [canonicalIPInCIDR, hm, h4, to16, h16]
  · intro mask o s ip hm h32 h128
    simp [canonicalIPInCIDR, hm, h32, h128]

/-- C8 witness: the characterization applied at concrete inputs —
`192.168.1.0/28` (32-bit mask), `::ffff:c0a8:100/90` (mapped, mask below
96), `::ffff:c0a8:100/124` (mapped, mask at least 96), `fe80::/10`
(genuine IPv6) and a 64-bit mask. -/
theorem c8_canonicalIPInCIDR_characterization_witness :
    canonicalIPInCIDR ⟨[192, 168, 1, 0], cidrMask 28 32⟩ =
      Except.ok ⟨[192, 168, 1, 0], cidrMask 28 32⟩ ∧
    canonicalIPInCIDR ⟨v4InV6Prefix ++ [192, 168, 1, 0], cidrMask 90 128⟩ =
      Except.error "IPv6 CIDR includes both v4 and v6 space" ∧
    canonicalIPInCIDR ⟨v4InV6Prefix ++ [192, 168, 1, 0], cidrMask 124 128⟩ =
      Except.ok ⟨[192, 168, 1, 0], cidrMask (124 - 96) 32⟩ ∧
    canonicalIPInCIDR ⟨[254, 128, 0, 0, 0, 0, 0, 0, 0, 0, 0, 0, 0, 0, 0, 0], cidrMask 10 128⟩ =
      Except.ok ⟨[254, 128, 0, 0, 0, 0, 0, 0, 0, 0, 0, 0, 0, 0, 0, 0], cidrMask 10 128⟩ ∧
    canonicalIPInCIDR ⟨[1, 2, 3, 4, 5, 6, 7, 8], List.replicate 8 255⟩ =
      Except.error "invalid mask" :=
  ⟨c8_canonicalIPInCIDR_characterization.1 (cidrMask 28 32) 28 [192, 168, 1, 0]
     [192, 168, 1, 0] (by decide) (by decide),
   c8_canonicalIPInCIDR_characterization.2.1 (cidrMask 90 128) 90
     (v4InV6Prefix ++ [192, 168, 1, 0]) [192, 168, 1, 0] (by decide) (by decide) (by decide),
   (c8_canonicalIPInCIDR_characterization.2.2.1 (cidrMask 124 128) 124
     (v4InV6Prefix ++ [192, 168, 1, 0]) [192, 168, 1, 0] (by decide) (by decide)
     (by decide) (by decide)).1,
   c8_canonicalIPInCIDR_characterization.2.2.2.1 (cidrMask 10 128) 10
     [254, 128, 0, 0, 0, 0, 0, 0, 0, 0, 0, 0, 0, 0, 0, 0] (by decide) (by decide) (by decide),
   c8_canonicalIPInCIDR_characterization.2.2.2.2.1 (List.replicate 8 255) 64 64
     [1, 2, 3, 4, 5, 6, 7, 8] (by decide) (by decide) (by decide)⟩

/-- `Except.ok` on the left of a bind reduces. -/
theorem exceptBind_ok {α β ε : Type} (x : α) (f : α → Except ε β) :
    (Except.ok x : Except ε α) >>= f = f x := rfl

/-- A `CIDRMask(n, 32)` value is a 4-byte literal list. -/
theorem cidrMask32_shape (n : Nat) (h : n ≤ 32) : cidrMask n 32 =
    [(cidrMask n 32).getD 0 0, (cidrMask n 32).getD 1 0,
     (cidrMask n 32).getD 2 0, (cidrMask n 32).getD 3 0] := by
  interval_cases n <;> decide

/-- For prefixes up to /30, the last byte of `CIDRMask(n, 32)` leaves at
least the two low bits clear. -/
theorem cidrMask32_last_le (n : Nat) (h : n ≤ 30) : (cidrMask n 32).getD 3 0 ≤ 252 := by
  interval_cases n <;> decide

/-- Bitwise or can only grow a natural number. -/
theorem le_lor_left (a b : Nat) : a ≤ a ||| b :=
  Nat.le_of_testBit (by intro i h; simp [Nat.testBit_or, h])

/-- `defaultRangeStart` on an IPv4 network address whose prefix is shorter
than /31: the network address plus one. -/
theorem defaultRangeStart_v4 (a b c d o : Nat) (mask : List Nat)
    (hm : maskSize mask = (o, 32)) (ho : o < 31) (hd : d ≤ 252) :
    defaultRangeStart ⟨[a, b, c, d], mask⟩ = Except.ok [a, b, c, d + 1] ∧
    ipToNat [a, b, c, d + 1] = ipToNat [a, b, c, d] + 1 := by
  constructor
  · unfold defaultRangeStart canonicalIPInCIDR
    simp [hm, to4, ho, exceptBind_ok, Nat.mod_eq_of_lt (by omega : d + 1 < 256)]
  · simp only [ipToNat, List.foldl]
    omega

/-- `defaultRangeEnd` on an IPv4 network address whose prefix is shorter
than /31: the broadcast address minus one. -/
theorem defaultRangeEnd_v4 (a b c d o m0 m1 m2 m3 : Nat)
    (hm : maskSize [m0, m1, m2, m3] = (o, 32)) (ho : o < 31)
    (hm3 : m3 ≤ 252) (hd : d < 256) :
    defaultRangeEnd ⟨[a, b, c, d], [m0, m1, m2, m3]⟩ =
      Except.ok [Nat.lor (255 - m0) a, Nat.lor (255 - m1) b, Nat.lor (255 - m2) c,
        Nat.lor (255 - m3) d - 1] ∧
    ipToNat [Nat.lor (255 - m0) a, Nat.lor (255 - m1) b, Nat.lor (255 - m2) c,
        Nat.lor (255 - m3) d - 1] + 1 =
      ipToNat (broadcastBytes [a, b, c, d] [m0, m1, m2, m3]) := by
  have hge : 3 ≤ Nat.lor (255 - m3) d := le_trans (by omega) (le_lor_left (255 - m3) d)
  have hlt : Nat.lor (255 - m3) d < 256 := by
    have h2 := Nat.or_lt_two_pow (x := 255 - m3) (y := d) (n := 8) (by omega) (by omega)
    simpa [Nat.lor] using h2
  constructor
  · unfold defaultRangeEnd canonicalIPInCIDR
    simp [hm, to4, ho, exceptBind_ok, byteSliceOr, byteSliceNot,
      (by omega : (Nat.lor (255 - m3) d + 255) % 256 = Nat.lor (255 - m3) d - 1)]
  · simp only [ipToNat, broadcastBytes, byteSliceNot, List.map, List.zipWith, List.foldl]
    omega

/-- C9: default range bounds.  For every IPv4 network address under a
`CIDRMask(n, 32)` with `n ≤ 30`, `defaultRangeStart` is the network
address plus one and `defaultRangeEnd` is the broadcast address (network
bits with all-ones host bits) minus one.  For `n = 31` or `n = 32` and for
every genuine (non-IPv4-mapped) IPv6 CIDR there is no reservation: the
start is the network address and the end is the all-ones-host address.
Concretely, `192.168.1.0/25` gives `192.168.1.1`/`192.168.1.126` and
`10.0.0.0/31` gives `10.0.0.0`/`10.0.0.1`. -/
theorem c9_default_range_bounds :
    (∀ a b c d n : Nat, a < 256 → b < 256 → c < 256 → d < 256 → n ≤ 30 →
      List.zipWith Nat.land [a, b, c, d] (cidrMask n 32) = [a, b, c, d] →
      (∃ s, defaultRangeStart ⟨[a, b, c, d], cidrMask n 32⟩ = Except.ok s ∧
        ipToNat s = ipToNat [a, b, c, d] + 1) ∧
      (∃ e2, defaultRangeEnd ⟨[a, b, c, d], cidrMask n 32⟩ = Except.ok e2 ∧
        ipToNat e2 + 1 = ipToNat (broadcastBytes [a, b, c, d] (cidrMask n 32)))) ∧
    (∀ a b c d n : Nat, n = 31 ∨ n = 32 →
      defaultRangeStart ⟨[a, b, c, d], cidrMask n 32⟩ = Except.ok [a, b, c, d] ∧
      defaultRangeEnd ⟨[a, b, c, d], cidrMask n 32⟩ =
        Except.ok (broadcastBytes [a, b, c, d] (cidrMask n 32))) ∧
    (∀ (ip mask : List Nat) (n : Nat), maskSize mask = (n, 128) → to4 ip = none →
      ip.length = 16 →
      defaultRangeStart ⟨ip, mask⟩ = Except.ok ip ∧
      defaultRangeEnd ⟨ip, mask⟩ = Except.ok (broadcastBytes ip mask)) ∧
    (defaultRangeStart ⟨[192, 168, 1, 0], cidrMask 25 32⟩ = Except.ok [192, 168, 1, 1] ∧
     defaultRangeEnd ⟨[192, 168, 1, 0], cidrMask 25 32⟩ = Except.ok [192, 168, 1, 126]) ∧
    (defaultRangeStart ⟨[10, 0, 0, 0], cidrMask 31 32⟩ = Except.ok [10, 0, 0, 0] ∧
     defaultRangeEnd ⟨[10, 0, 0, 0], cidrMask 31 32⟩ = Except.ok [10, 0, 0, 1]) := by
  refine ⟨?_, ?_, ?_, ⟨by rfl, by rfl⟩, ⟨by rfl, by rfl⟩⟩
  · intro a b c d n ha hb hc hd hn hmask
    have hshape := cidrMask32_shape n (by omega)
    have hld : Nat.land d ((cidrMask n 32).getD 3 0) = d := by
      have hx := congrArg (fun l => l.getD 3 0) hmask
      rw [hshape] at hx
      simpa using hx
    have hd252 : d ≤ 252 := by
      have h1 : Nat.land d ((cidrMask n 32).getD 3 0) ≤ (cidrMask n 32).getD 3 0 :=
        Nat.and_le_right
      rw [hld] at h1
      exact le_trans h1 (cidrMask32_last_le n hn)
    constructor
    · obtain ⟨h1, h2⟩ := defaultRangeStart_v4 a b c d n (cidrMask n 32)
        (maskSize_cidrMask32 n (by omega)) (by omega) hd252
      exact ⟨[a, b, c, d + 1], h1, h2⟩
    · rw [hshape]
      obtain ⟨h1, h2⟩ := defaultRangeEnd_v4 a b c d n
        ((cidrMask n 32).getD 0 0) ((cidrMask n 32).getD 1 0)
        ((cidrMask n 32).getD 2 0) ((cidrMask n 32).getD 3 0)
        (by rw [← hshape]; exact maskSize_cidrMask32 n (by omega)) (by omega)
        (cidrMask32_last_le n hn) hd
      exact ⟨_, h1, h2⟩
  · intro a b c d n hn
    rcases hn with rfl | rfl
    · rw [(by decide : cidrMask 31 32 = [255, 255, 255, 254])]
      constructor
      · unfold defaultRangeStart canonicalIPInCIDR
        simp [to4, exceptBind_ok, (by decide : maskSize [255, 255, 255, 254] = (31, 32))]
      · unfold defaultRangeEnd canonicalIPInCIDR
        simp [to4, exceptBind_ok, byteSliceOr, byteSliceNot, broadcastBytes,
          (by decide : maskSize [255, 255, 255, 254] = (31, 32))]
    · rw [(by decide : cidrMask 32 32 = [255, 255, 255, 255])]
      constructor
      · unfold defaultRangeStart canonicalIPInCIDR
        simp [to4, exceptBind_ok, (by decide : maskSize [255, 255, 255, 255] = (32, 32))]
      · unfold defaultRangeEnd canonicalIPInCIDR
        simp [to4, exceptBind_ok, byteSliceOr, byteSliceNot, broadcastBytes,
          (by decide : maskSize [255, 255, 255, 255] = (32, 32))]
  · intro ip mask n hm h4 h16
    have hlen : mask.length = 16 := by
      unfold maskSize at hm
      rcases h : simpleMaskLength mask with _ | ones <;> rw [h] at hm <;>
        simp [Prod.ext_iff] at hm
      omega
    constructor
    · unfold defaultRangeStart canonicalIPInCIDR
      simp [hm, h4, to16, h16, exceptBind_ok]
    · unfold defaultRangeEnd canonicalIPInCIDR
      simp [hm, h4, to16, h16, exceptBind_ok, byteSliceOr, byteSliceNot, hlen, broadcastBytes]

/-- C9 witness: the general parts of `c9_default_range_bounds`
instantiated — `192.168.1.0/25` for the reserved IPv4 case, `10.0.0.0/31`
for the unreserved IPv4 case, and `fe80::/10` for the IPv6 case. -/
theorem c9_default_range_bounds_witness :
    ((∃ s, defaultRangeStart ⟨[192, 168, 1, 0], cidrMask 25 32⟩ = Except.ok s ∧
        ipToNat s = ipToNat [192, 168, 1, 0] + 1) ∧
      (∃ e2, defaultRangeEnd ⟨[192, 168, 1, 0], cidrMask 25 32⟩ = Except.ok e2 ∧
        ipToNat e2 + 1 = ipToNat (broadcastBytes [192, 168, 1, 0] (cidrMask 25 32)))) ∧
    (defaultRangeStart ⟨[10, 0, 0, 0], cidrMask 31 32⟩ = Except.ok [10, 0, 0, 0] ∧
      defaultRangeEnd ⟨[10, 0, 0, 0], cidrMask 31 32⟩ =
        Except.ok (broadcastBytes [10, 0, 0, 0] (cidrMask 31 32))) ∧
    (defaultRangeStart ⟨[254, 128, 0, 0, 0, 0, 0, 0, 0, 0, 0, 0, 0, 0, 0, 0],
        cidrMask 10 128⟩ =
      Except.ok [254, 128, 0, 0, 0, 0, 0, 0, 0, 0, 0, 0, 0, 0, 0, 0] ∧
     defaultRangeEnd ⟨[254, 128, 0, 0, 0, 0, 0, 0, 0, 0, 0, 0, 0, 0, 0, 0],
        cidrMask 10 128⟩ =
      Except.ok (broadcastBytes [254, 128, 0, 0, 0, 0, 0, 0, 0, 0, 0, 0, 0, 0, 0, 0]
        (cidrMask 10 128))) :=
  ⟨c9_default_range_bounds.1 192 168 1 0 25 (by decide) (by decide) (by decide)
     (by decide) (by decide) (by decide),
   c9_default_range_bounds.2.1 10 0 0 0 31 (Or.inl rfl),
   c9_default_range_bounds.2.2.1 [254, 128, 0, 0, 0, 0, 0, 0, 0, 0, 0, 0, 0, 0, 0, 0]
     (cidrMask 10 128) 10 (by decide) (by decide) (by decide)⟩

end Wgmesh
